import Mathlib

/-!
Verification of the Ticket Lifecycle & SLA Engine of the
`Ticketing_As_A_Service` repository (a Django ticketing application).

The development shallowly embeds the Python code of `tickets/models.py`,
`tickets/views.py` (the `bulk_action` view) and `tickets/reports.py`
(the SLA-performance loop of `reports_dashboard`) into Lean:

* Python strings are embedded as `List Char` (`PyStr`); `str.split('-')`
  becomes `splitOnChar '-'`, f-string rendering with `{n:06d}` becomes
  `pad6`, and `int(s)` becomes `pyInt?`, modelling CPython's string
  conversion on the dash-free strings that occur at its one call site
  (segments of a split on `'-'` contain no `'-'`, see
  `splitOnChar_not_mem_sep`, so no minus sign can appear): surrounding
  whitespace is skipped, an optional leading `'+'` is accepted, and the
  digits are Unicode decimal digits with single underscores allowed
  between them.
* `datetime` values are embedded as integers counting seconds
  (`timedelta(hours=h)` is `h * 3600`, `timedelta.total_seconds()` is the
  integer itself); nullable datetime columns are `Option Int`.
* Django model instances are Lean structures; the overridden `save`
  methods become pure state transformers; the persisted rows become an
  explicit `DB` record threaded through the store-level operations.
-/

set_option maxRecDepth 10000

namespace Taas

/-- Python strings, embedded as lists of characters. -/
abbrev PyStr := List Char

/-- Python's `s.split(sep)` for a one-character separator, as in Python:
`''.split('-') = ['']`, `'a-b'.split('-') = ['a', 'b']`,
`'garbage'.split('-') = ['garbage']`. -/
def splitOnChar (sep : Char) : PyStr → List PyStr
  | [] => [[]]
  | c :: cs =>
      match splitOnChar sep cs with
      | [] => []
      | h :: t => if c = sep then [] :: h :: t else (c :: h) :: t

/-- Big-endian value of a run of decimal digit characters
(`'4','7'` ↦ `47`). -/
def charsVal (l : PyStr) : Nat :=
  l.foldl (fun a c => 10 * a + (c.toNat - 48)) 0

/-- First code points of the runs of ten consecutive Unicode decimal
digits (general category `Nd`, Unicode 14.0, the table CPython 3.11
ships; later Unicode versions add further runs, e.g. Kawi 0x11F50 and
Nag Mundari 0x1E4F0 in 15.0): a character is a decimal digit for
`int()` exactly when its code point lies in `[z, z + 9]` for one of
these `z`, with value `codepoint - z`. -/
def ndZeroPoints : List Nat :=
  [0x30, 0x660, 0x6F0, 0x7C0, 0x966, 0x9E6, 0xA66, 0xAE6, 0xB66, 0xBE6,
   0xC66, 0xCE6, 0xD66, 0xDE6, 0xE50, 0xED0, 0xF20, 0x1040, 0x1090,
   0x17E0, 0x1810, 0x1946, 0x19D0, 0x1A80, 0x1A90, 0x1B50, 0x1BB0,
   0x1C40, 0x1C50, 0xA620, 0xA8D0, 0xA900, 0xA9D0, 0xA9F0, 0xAA50,
   0xABF0, 0xFF10, 0x104A0, 0x10D30, 0x11066, 0x110F0, 0x11136,
   0x111D0, 0x112F0, 0x11450, 0x114D0, 0x11650, 0x116C0, 0x11730,
   0x118E0, 0x11950, 0x11C50, 0x11D50, 0x11DA0, 0x16A60,
   0x16AC0, 0x16B50, 0x1D7CE, 0x1D7D8, 0x1D7E2, 0x1D7EC, 0x1D7F6,
   0x1E140, 0x1E2F0, 0x1E950, 0x1FBF0]

/-- The decimal value of a Unicode decimal digit, `none` for every other
character. -/
def decDigit? (c : Char) : Option Nat :=
  match ndZeroPoints.find? (fun z => z ≤ c.toNat && c.toNat ≤ z + 9) with
  | some z => some (c.toNat - z)
  | none => none

/-- Code points CPython's `int()` parser skips as surrounding
whitespace: the transform to ASCII maps every non-ASCII
`Py_UNICODE_ISSPACE` character to a space, copies ASCII unchanged, and
the byte parser then skips C `isspace` (9-13 and 32) — so ASCII
controls 0x1C-0x1F, though `Py_UNICODE_ISSPACE`, are *not* skipped. -/
def pyIntSpaceCodes : List Nat :=
  [0x9, 0xA, 0xB, 0xC, 0xD, 0x20, 0x85, 0xA0,
   0x1680, 0x2000, 0x2001, 0x2002, 0x2003, 0x2004, 0x2005, 0x2006,
   0x2007, 0x2008, 0x2009, 0x200A, 0x2028, 0x2029, 0x202F, 0x205F,
   0x3000]

/-- Is the character whitespace for `int()`? -/
def isPyIntSpace (c : Char) : Bool := pyIntSpaceCodes.contains c.toNat

/-- Remove the surrounding whitespace `int()` skips. -/
def stripPyWs (l : PyStr) : PyStr :=
  ((l.dropWhile isPyIntSpace).reverse.dropWhile isPyIntSpace).reverse

/-- Continuation of `digitpart?` after at least one digit was read into
`acc`: further digits accumulate, a single `'_'` must be followed by a
digit, anything else (a trailing `'_'` included) is a `ValueError`. -/
def digitpartAux (acc : Nat) : PyStr → Option Nat
  | [] => some acc
  | c :: rest =>
      if c = '_' then
        match rest with
        | [] => none
        | c2 :: rest2 =>
            match decDigit? c2 with
            | some d => digitpartAux (10 * acc + d) rest2
            | none => none
      else
        match decDigit? c with
        | some d => digitpartAux (10 * acc + d) rest
        | none => none

/-- CPython's `digitpart`: a nonempty digit run with single underscores
between digits (`digit (["_"] digit)*`). -/
def digitpart? : PyStr → Option Nat
  | [] => none
  | c :: rest =>
      match decDigit? c with
      | some d => digitpartAux d rest
      | none => none

/-- Python's `int(s)` on a dash-free string (the one call site passes a
segment of a split on `'-'`, which cannot contain `'-'`, so no minus
sign — whose successful parse would be negative — can occur): skip
surrounding whitespace, accept an optional `'+'` immediately followed by
the digits, and parse a `digitpart?`; every input `int()` rejects with
`ValueError` is `none`. -/
def pyInt? (l : PyStr) : Option Nat :=
  match stripPyWs l with
  | [] => none
  | c :: rest => if c = '+' then digitpart? rest else digitpart? (c :: rest)

/-- Decimal digit characters of `n`, most significant first, via an
explicit fuel argument (`n` itself bounds the number of divisions), so
that the kernel can evaluate it. `natCharsAux fuel 0 = []`. -/
def natCharsAux : Nat → Nat → PyStr
  | 0, _ => []
  | _ + 1, 0 => []
  | fuel + 1, n + 1 =>
      natCharsAux fuel ((n + 1) / 10) ++ [Char.ofNat (48 + (n + 1) % 10)]

/-- Decimal rendering of `n` (empty for `0`; only used under `pad6`,
where the padding restores the `'0'` that Python prints for `0`). -/
def natChars (n : Nat) : PyStr := natCharsAux n n

/-- Python's `f'{n:06d}'`: decimal digits of `n`, left-padded with `'0'`
to a minimum width of six characters (wider numbers are not truncated). -/
def pad6 (n : Nat) : PyStr :=
  List.replicate (6 - (natChars n).length) '0' ++ natChars n

/-- The fixed identifier prefix `'RX-UG-INC-'` of the allocator. -/
def ticketPrefix : PyStr := ("RX-UG-INC-").data

/-- The seed identifier `'RX-UG-INC-000001'` returned by every fallback
branch of the allocator. -/
def seedId : PyStr := ("RX-UG-INC-000001").data

/-- The identifier rendered by the allocator for suffix `n`:
`f'RX-UG-INC-{n:06d}'`. -/
def mkId (n : Nat) : PyStr := ticketPrefix ++ pad6 n

/-- The allocator `get_next_ticket_id` (tickets/models.py:9-24). The backing store is
embedded as the list of the persisted tickets' `ticket_id` strings in
primary-key (insertion) order, so `order_by('id').last()` is the last
element. The `try/except` catching `ValueError` from `int(...)` is the
`none` branch of `pyInt?`; all other caught exceptions concern a missing
table and have no counterpart in this state model. -/
def get_next_ticket_id (store : List PyStr) : PyStr :=
  match store.getLast? with
  | none => seedId
  | some tid =>
      let ticket_id_parts := splitOnChar '-' tid
      if 4 ≤ ticket_id_parts.length then
        match pyInt? (ticket_id_parts.getLastD []) with
        | some last_id => ticketPrefix ++ pad6 (last_id + 1)
        | none => seedId
      else seedId

/-- The numeric suffix a reader of an identifier extracts: parse the last
dash-separated segment as a decimal number. -/
def numericSuffix (tid : PyStr) : Option Nat :=
  pyInt? ((splitOnChar '-' tid).getLastD [])

/-- States of the ticket store reachable by ticket creation: each created
ticket is appended with the identifier the allocator produced from the
state before it (the `ticket_id` column default; tickets/models.py:118). -/
inductive ReachableStore : List PyStr → Prop
  | nil : ReachableStore []
  | step (s : List PyStr) : ReachableStore s →
      ReachableStore (s ++ [get_next_ticket_id s])

theorem splitOnChar_ne_nil (sep : Char) (l : PyStr) : splitOnChar sep l ≠ [] := by
  induction l with
  | nil => simp [splitOnChar]
  | cons c cs ih =>
      cases h : splitOnChar sep cs with
      | nil => exact absurd h ih
      | cons hd tl =>
          simp only [splitOnChar, h]
          split <;> simp

theorem splitOnChar_of_not_mem {sep : Char} {l : PyStr} (h : sep ∉ l) :
    splitOnChar sep l = [l] := by
  induction l with
  | nil => rfl
  | cons c cs ih =>
      have hc : c ≠ sep := fun hcs => h (hcs ▸ List.mem_cons_self c cs)
      have hcs : sep ∉ cs := fun hm => h (List.mem_cons_of_mem c hm)
      simp only [splitOnChar, ih hcs]
      simp [hc]

theorem splitOnChar_append_cons {sep : Char} {l₁ : PyStr} (l₂ : PyStr)
    (h : sep ∉ l₁) :
    splitOnChar sep (l₁ ++ sep :: l₂) = l₁ :: splitOnChar sep l₂ := by
  induction l₁ with
  | nil =>
      rw [List.nil_append, splitOnChar]
      cases hs : splitOnChar sep l₂ with
      | nil => exact absurd hs (splitOnChar_ne_nil sep l₂)
      | cons hd tl => simp
  | cons c cs ih =>
      have hc : c ≠ sep := fun hcs => h (hcs ▸ List.mem_cons_self c cs)
      have hcs : sep ∉ cs := fun hm => h (List.mem_cons_of_mem c hm)
      rw [List.cons_append, splitOnChar, ih hcs]
      simp [hc]

theorem splitOnChar_not_mem_sep (sep : Char) (l : PyStr) :
    ∀ seg ∈ splitOnChar sep l, sep ∉ seg := by
  induction l with
  | nil =>
      intro seg hseg
      simp only [splitOnChar, List.mem_singleton] at hseg
      subst hseg
      simp
  | cons c cs ih =>
      intro seg hseg
      cases h : splitOnChar sep cs with
      | nil => exact absurd h (splitOnChar_ne_nil sep cs)
      | cons hd tl =>
          simp only [splitOnChar, h] at hseg
          by_cases hc : c = sep
          · rw [if_pos hc] at hseg
            rcases List.mem_cons.mp hseg with rfl | hseg2
            · simp
            · exact ih seg (h ▸ hseg2)
          · rw [if_neg hc] at hseg
            rcases List.mem_cons.mp hseg with rfl | hseg2
            · intro hmem
              rcases List.mem_cons.mp hmem with rfl | hmem2
              · exact hc rfl
              · exact ih hd (h ▸ List.mem_cons_self hd tl) hmem2
            · exact ih seg (h ▸ List.mem_cons_of_mem hd hseg2)

theorem digitChar_toNat {d : Nat} (h : d < 10) :
    (Char.ofNat (48 + d)).toNat = 48 + d := by
  interval_cases d <;> decide

theorem digitChar_ne_dash {d : Nat} (h : d < 10) : Char.ofNat (48 + d) ≠ '-' := by
  interval_cases d <;> decide

theorem digitChar_ne_plus {d : Nat} (h : d < 10) : Char.ofNat (48 + d) ≠ '+' := by
  interval_cases d <;> decide

theorem digitChar_ne_underscore {d : Nat} (h : d < 10) :
    Char.ofNat (48 + d) ≠ '_' := by
  interval_cases d <;> decide

theorem digitChar_not_space {d : Nat} (h : d < 10) :
    isPyIntSpace (Char.ofNat (48 + d)) = false := by
  interval_cases d <;> decide

theorem digitChar_decDigit {d : Nat} (h : d < 10) :
    decDigit? (Char.ofNat (48 + d)) = some d := by
  interval_cases d <;> decide

theorem charsVal_append_digit (l : PyStr) (c : Char) :
    charsVal (l ++ [c]) = 10 * charsVal l + (c.toNat - 48) := by
  simp [charsVal, List.foldl_append]

theorem natCharsAux_spec (fuel : Nat) :
    ∀ n, n ≤ fuel →
      charsVal (natCharsAux fuel n) = n ∧
      ∀ c ∈ natCharsAux fuel n, ∃ d, d < 10 ∧ c = Char.ofNat (48 + d) := by
  induction fuel with
  | zero =>
      intro n hn
      interval_cases n
      exact ⟨rfl, by simp [natCharsAux]⟩
  | succ fuel ih =>
      intro n hn
      match n with
      | 0 => exact ⟨rfl, by simp [natCharsAux]⟩
      | m + 1 =>
          have hdiv : (m + 1) / 10 ≤ fuel := by
            have := Nat.div_lt_self (Nat.succ_pos m) (by omega : 1 < 10)
            omega
          obtain ⟨hval, hdig⟩ := ih ((m + 1) / 10) hdiv
          have hm10 : (m + 1) % 10 < 10 := Nat.mod_lt _ (by omega)
          constructor
          · rw [natCharsAux, charsVal_append_digit, hval, digitChar_toNat hm10]
            omega
          · intro c hc
            rw [natCharsAux] at hc
            rcases List.mem_append.mp hc with hc | hc
            · exact hdig c hc
            · have : c = Char.ofNat (48 + (m + 1) % 10) := by
                simpa using hc
              exact ⟨(m + 1) % 10, hm10, this⟩

theorem charsVal_natChars (n : Nat) : charsVal (natChars n) = n :=
  (natCharsAux_spec n n le_rfl).1

theorem natChars_digits {n : Nat} {c : Char} (hc : c ∈ natChars n) :
    ∃ d, d < 10 ∧ c = Char.ofNat (48 + d) :=
  (natCharsAux_spec n n le_rfl).2 c hc

theorem charsVal_replicate_zero (k : Nat) (l : PyStr) :
    charsVal (List.replicate k '0' ++ l) = charsVal l := by
  induction k with
  | zero => rfl
  | succ k ih =>
      have : List.replicate (k + 1) '0' ++ l = '0' :: (List.replicate k '0' ++ l) := by
        simp [List.replicate_succ]
      rw [this]
      simpa [charsVal] using ih

theorem pad6_ne_nil (n : Nat) : pad6 n ≠ [] := by
  intro h
  rcases List.append_eq_nil.mp h with ⟨h1, h2⟩
  rw [pad6] at h
  rw [h2] at h1
  simp at h1

theorem pad6_mem {n : Nat} {c : Char} (hc : c ∈ pad6 n) :
    ∃ d, d < 10 ∧ c = Char.ofNat (48 + d) := by
  rcases List.mem_append.mp hc with hc | hc
  · exact ⟨0, by omega, by rw [List.eq_of_mem_replicate hc]⟩
  · exact natChars_digits hc

theorem dash_not_mem_pad6 (n : Nat) : '-' ∉ pad6 n := by
  intro h
  obtain ⟨d, hd, hdash⟩ := pad6_mem h
  exact digitChar_ne_dash hd hdash.symm

theorem dropWhile_eq_self_of_all {p : Char → Bool} {l : PyStr}
    (h : ∀ c ∈ l, p c = false) : l.dropWhile p = l := by
  cases l with
  | nil => rfl
  | cons c cs =>
      rw [List.dropWhile_cons, h c (List.mem_cons_self c cs)]
      simp

theorem stripPyWs_eq_self {l : PyStr}
    (h : ∀ c ∈ l, isPyIntSpace c = false) : stripPyWs l = l := by
  rw [stripPyWs, dropWhile_eq_self_of_all h,
    dropWhile_eq_self_of_all (fun c hc => h c (List.mem_reverse.mp hc)),
    List.reverse_reverse]

theorem digitpartAux_all_digits (l : PyStr)
    (h : ∀ c ∈ l, ∃ d, d < 10 ∧ c = Char.ofNat (48 + d)) (acc : Nat) :
    digitpartAux acc l
      = some (l.foldl (fun a c => 10 * a + (c.toNat - 48)) acc) := by
  induction l generalizing acc with
  | nil => rfl
  | cons c cs ih =>
      obtain ⟨d, hd, hc⟩ := h c (List.mem_cons_self c cs)
      subst hc
      rw [digitpartAux.eq_def]
      simp only [if_neg (digitChar_ne_underscore hd), digitChar_decDigit hd]
      rw [ih (fun x hx => h x (List.mem_cons_of_mem _ hx)),
        List.foldl_cons, digitChar_toNat hd]
      have : 10 * acc + (48 + d - 48) = 10 * acc + d := by omega
      rw [this]

theorem pyInt?_all_digits {l : PyStr} (hne : l ≠ [])
    (h : ∀ c ∈ l, ∃ d, d < 10 ∧ c = Char.ofNat (48 + d)) :
    pyInt? l = some (charsVal l) := by
  have hstrip : stripPyWs l = l :=
    stripPyWs_eq_self (fun c hc => by
      obtain ⟨d, hd, hcd⟩ := h c hc
      rw [hcd]
      exact digitChar_not_space hd)
  cases l with
  | nil => exact absurd rfl hne
  | cons c cs =>
      obtain ⟨d, hd, hc⟩ := h c (List.mem_cons_self c cs)
      subst hc
      simp only [pyInt?, hstrip]
      rw [if_neg (digitChar_ne_plus hd)]
      simp only [digitpart?, digitChar_decDigit hd]
      rw [digitpartAux_all_digits cs
        (fun x hx => h x (List.mem_cons_of_mem _ hx)) d]
      rw [charsVal, List.foldl_cons, digitChar_toNat hd]
      have : 10 * 0 + (48 + d - 48) = d := by omega
      rw [this]

theorem pyInt?_pad6 (n : Nat) : pyInt? (pad6 n) = some n := by
  rw [pyInt?_all_digits (pad6_ne_nil n) (fun c hc => pad6_mem hc)]
  rw [pad6, charsVal_replicate_zero, charsVal_natChars]

theorem splitOnChar_mkId (n : Nat) :
    splitOnChar '-' (mkId n) =
      [['R', 'X'], ['U', 'G'], ['I', 'N', 'C'], pad6 n] := by
  have hshape : mkId n =
      ['R', 'X'] ++ '-' :: (['U', 'G'] ++ '-' :: (['I', 'N', 'C'] ++ '-' :: pad6 n)) := by
    rfl
  rw [hshape,
    splitOnChar_append_cons _ (by decide),
    splitOnChar_append_cons _ (by decide),
    splitOnChar_append_cons _ (by decide),
    splitOnChar_of_not_mem (dash_not_mem_pad6 n)]

theorem numericSuffix_mkId (n : Nat) : numericSuffix (mkId n) = some n := by
  rw [numericSuffix, splitOnChar_mkId]
  simpa using pyInt?_pad6 n

theorem mkId_inj {a b : Nat} (h : mkId a = mkId b) : a = b := by
  have := numericSuffix_mkId a
  rw [h, numericSuffix_mkId] at this
  exact (Option.some_inj.mp this).symm

/-- The store after `n` allocator-driven creations:
`[mkId 1, mkId 2, …, mkId n]`. -/
def seqStore (n : Nat) : List PyStr := (List.range n).map (fun i => mkId (i + 1))

theorem seqStore_succ (n : Nat) :
    seqStore (n + 1) = seqStore n ++ [mkId (n + 1)] := by
  simp [seqStore, List.range_succ]

theorem get_next_seqStore (n : Nat) :
    get_next_ticket_id (seqStore n) = mkId (n + 1) := by
  match n with
  | 0 => decide
  | m + 1 =>
      have hlast : (seqStore (m + 1)).getLast? = some (mkId (m + 1)) := by
        rw [seqStore_succ]
        simp
      rw [get_next_ticket_id, hlast]
      simp only [splitOnChar_mkId]
      have h4 : 4 ≤ ([['R', 'X'], ['U', 'G'], ['I', 'N', 'C'], pad6 (m + 1)] : List PyStr).length := by
        simp
      rw [if_pos h4]
      have hlastD : ([['R', 'X'], ['U', 'G'], ['I', 'N', 'C'], pad6 (m + 1)] : List PyStr).getLastD [] = pad6 (m + 1) := by
        simp
      rw [hlastD, pyInt?_pad6]
      rfl

theorem reachable_eq_seqStore {s : List PyStr} (h : ReachableStore s) :
    ∃ n, s = seqStore n := by
  induction h with
  | nil => exact ⟨0, rfl⟩
  | step s _ ih =>
      obtain ⟨n, rfl⟩ := ih
      exact ⟨n + 1, by rw [get_next_seqStore, seqStore_succ]⟩

/-- The `SLA` model (tickets/models.py:88-94): response and resolution
commitments in hours. -/
structure SLA where
  response_time_hours : Nat
  resolution_time_hours : Nat
deriving DecidableEq, Repr

/-- The `Ticket` model (tickets/models.py:99-148), restricted to the
fields the lifecycle logic reads or writes. `status` keeps its Python
string values (`"open"`, `"in_progress"`, `"pending"`, `"resolved"`,
`"closed"`, `"cancelled"`); datetimes are seconds (`Int`), nullable ones
`Option Int`. -/
structure Ticket where
  ticket_id : PyStr
  title : String
  status : String
  priority : String
  assigned_to : Option Nat
  sla : Option SLA
  created_at : Int
  updated_at : Int
  first_response_at : Option Int
  resolved_at : Option Int
  closed_at : Option Int
deriving DecidableEq, Repr

/-- In-memory effect of `Ticket.save` (tickets/models.py:192-199): set
`resolved_at` to now when status is `'resolved'` and `resolved_at` is
unset, set `closed_at` to now when status is `'closed'` and `closed_at`
is unset (the source's two sequential `if` statements each read only
fields the other does not write, so they are rendered as one
simultaneous update).  The method body contains no `super().save()`
call, so it has
no further effect: nothing is written to the store and `updated_at`
(refreshed only by an actual store write, via `auto_now`) stays as it
was; see `ticketSaveFull`. -/
def ticketSave (now : Int) (t : Ticket) : Ticket :=
  { t with
    resolved_at := if t.status = "resolved" ∧ t.resolved_at = none
                   then some now else t.resolved_at,
    closed_at := if t.status = "closed" ∧ t.closed_at = none
                 then some now else t.closed_at }

/-- The `TicketComment` model (tickets/models.py:203-224), restricted to
the fields its `save` override touches. A comment with `pk = none` has
not been inserted yet (`self.pk is None`). -/
structure TicketComment where
  pk : Option Nat
  author_is_staff : Bool
  content : String
  created_at : Option Int
  updated_at : Option Int
deriving DecidableEq, Repr

/-- The persisted rows the store-level operations can touch. -/
structure DB where
  tickets : List Ticket
  comments : List TicketComment
deriving DecidableEq, Repr

/-- Store-level `Ticket.save`: the override never calls `super().save()`
(tickets/models.py:192-199 end without one), so the persisted rows are
untouched whatever arguments (`update_fields` included) the caller
passed. -/
def ticketSaveFull (now : Int) (t : Ticket) (db : DB) : Ticket × DB :=
  (ticketSave now t, db)

/-- Effect of `TicketComment.save` (tickets/models.py:217-224): `super().save()`
inserts the comment (assigning `pk` and, via `auto_now_add`/`auto_now`,
`created_at` and `updated_at`) or updates it (refreshing `updated_at`);
then, if this was a new comment, the ticket's first response is unset
and the author is staff, sets `ticket.first_response_at` to the
comment's `created_at` and calls
`ticket.save(update_fields=['first_response_at'])` — which runs the
`Ticket.save` body above and persists nothing. -/
def commentSaveFull (newPk : Nat) (now : Int) (c : TicketComment)
    (t : Ticket) (db : DB) : TicketComment × Ticket × DB :=
  let is_new := c.pk = none
  let c1 := if is_new
            then { c with pk := some newPk, created_at := some now,
                          updated_at := some now }
            else { c with updated_at := some now }
  let db1 := { db with
    comments := if is_new then db.comments ++ [c1]
                else db.comments.map (fun x => if x.pk = c.pk then c1 else x) }
  if is_new ∧ t.first_response_at = none ∧ c.author_is_staff then
    let t1 := ticketSave now { t with first_response_at := c1.created_at }
    (c1, t1, db1)
  else
    (c1, t, db1)

/-- The property `Ticket.is_overdue` (tickets/models.py:165-178) as a function of the
reference time `now` that `timezone.now()` returns during the property
read; `timedelta(hours=h)` is `h * 3600` seconds. -/
def is_overdue (now : Int) (t : Ticket) : Bool :=
  match t.sla with
  | none => false
  | some sla =>
      if t.status = "resolved" ∨ t.status = "closed" ∨ t.status = "cancelled"
      then false
      else if t.first_response_at = none ∧
              now > t.created_at + sla.response_time_hours * 3600
      then true
      else now > t.created_at + sla.resolution_time_hours * 3600

/-- The spec's reference definition of `IsOverdue` (spec §4.2), written
from the spec's words for comparison with the source's `is_overdue`:
false without a policy or in a terminal status; with `first_response_at`
unset, overdue exactly when `now` exceeds the response deadline; with it
set, exactly when `now` exceeds the resolution deadline. -/
def isOverdueSpec (now : Int) (t : Ticket) : Bool :=
  match t.sla with
  | none => false
  | some sla =>
      if t.status = "resolved" ∨ t.status = "closed" ∨ t.status = "cancelled"
      then false
      else if t.first_response_at = none
      then now > t.created_at + sla.response_time_hours * 3600
      else now > t.created_at + sla.resolution_time_hours * 3600

/-- The amended reference definition of `IsOverdue`: with
`first_response_at` unset the source also reports overdue when the
resolution deadline has passed (the un-taken response branch falls
through to the resolution check), so the unset case is a disjunction of
the two deadline breaches. -/
def isOverdueSpecAmended (now : Int) (t : Ticket) : Bool :=
  match t.sla with
  | none => false
  | some sla =>
      if t.status = "resolved" ∨ t.status = "closed" ∨ t.status = "cancelled"
      then false
      else if t.first_response_at = none
      then now > t.created_at + sla.response_time_hours * 3600 ∨
           now > t.created_at + sla.resolution_time_hours * 3600
      else now > t.created_at + sla.resolution_time_hours * 3600

/-- The ticket-mutating operations of the system, acting on one ticket
(tickets/models.py and tickets/views.py `bulk_action`):

* `formSave s now` — a caller assigns `status = s` and calls
  `Ticket.save()` (the single-ticket edit path);
* `staffComment staff pk now` — a new `TicketComment` whose author has
  `is_staff = staff` is saved against the ticket;
* `bulkStatus s` — `bulk_action` with `action == 'status'`:
  `tickets.update(status=s)`, which bypasses `Ticket.save` entirely;
* `bulkClose now` — `bulk_action` with `action == 'close'`:
  `tickets.update(status='closed', closed_at=timezone.now())`
  (tickets/views.py:299-301), also bypassing `Ticket.save`. -/
inductive TicketOp where
  | formSave (newStatus : String) (now : Int)
  | staffComment (staff : Bool) (newPk : Nat) (now : Int)
  | bulkStatus (newStatus : String)
  | bulkClose (now : Int)
deriving DecidableEq, Repr

/-- A fresh, not-yet-inserted comment by an author with the given
staff flag. -/
def newComment (staff : Bool) : TicketComment :=
  { pk := none, author_is_staff := staff, content := "",
    created_at := none, updated_at := none }

/-- Effect of one operation on a ticket. The comment operation's ticket
component does not depend on the store, so an empty store is passed. -/
def applyOp : TicketOp → Ticket → Ticket
  | .formSave s now, t => ticketSave now { t with status := s }
  | .staffComment staff newPk now, t =>
      (commentSaveFull newPk now (newComment staff) t ⟨[], []⟩).2.1
  | .bulkStatus s, t => { t with status := s }
  | .bulkClose now, t => { t with status := "closed", closed_at := some now }

/-- Effect of a sequence of operations, applied left to right. -/
def applyOps : List TicketOp → Ticket → Ticket
  | [], t => t
  | op :: ops, t => applyOps ops (applyOp op t)

/-- Python's `round()` to an integer: nearest, ties to even. (The code
rounds a float; this embedding rounds the exact rational, which agrees
off the unrepresentable tie cases none of the checked values hit.) -/
def roundHalfEven (q : ℚ) : ℤ :=
  if q - ⌊q⌋ < 1 / 2 then ⌊q⌋
  else if 1 / 2 < q - ⌊q⌋ then ⌊q⌋ + 1
  else if ⌊q⌋ % 2 = 0 then ⌊q⌋ else ⌊q⌋ + 1

/-- Python's `round(x, 1)`: one decimal place. -/
def round1 (q : ℚ) : ℚ := (roundHalfEven (q * 10) : ℚ) / 10

/-- One iteration of the SLA-performance loop
(tickets/reports.py:95-99): increment the compliant counter when the
ticket has `resolved_at` set and its resolution time (in seconds) is at
most `resolution_time_hours * 3600`. -/
def complianceStep (sla : SLA) (acc : Nat) (t : Ticket) : Nat :=
  match t.resolved_at with
  | some r =>
      if r - t.created_at ≤ (sla.resolution_time_hours : Int) * 3600
      then acc + 1 else acc
  | none => acc

/-- The compliant-ticket counter of the SLA-performance loop
(tickets/reports.py:94-99): walk the tickets from `compliant_tickets = 0`
applying `complianceStep`. -/
def compliantFold (sla : SLA) (ts : List Ticket) : Nat :=
  ts.foldl (complianceStep sla) 0

/-- One entry of `sla_performance` (tickets/reports.py:87-107) for a
given policy, over the tickets already filtered to that policy: when
there are no tickets the policy contributes no entry at all; otherwise
the entry carries the total, the compliant count and the compliance
rate `compliant / total * 100` rounded to one decimal. -/
def slaPerformance (sla : SLA) (ts : List Ticket) : Option (Nat × Nat × ℚ) :=
  if 0 < ts.length then
    let compliant := compliantFold sla ts
    some (ts.length, compliant,
      round1 ((compliant : ℚ) / (ts.length : ℚ) * 100))
  else none

/-- The compliance predicate as the spec states it: `resolved_at` is set
and `resolved_at - created_at ≤ policy.resolution_time`. -/
def compliantPred (sla : SLA) (t : Ticket) : Bool :=
  match t.resolved_at with
  | some r => r - t.created_at ≤ (sla.resolution_time_hours : Int) * 3600
  | none => false

theorem ticketSave_resolved_at (now : Int) (t : Ticket) :
    (ticketSave now t).resolved_at =
      if t.status = "resolved" ∧ t.resolved_at = none
      then some now else t.resolved_at := rfl

theorem ticketSave_closed_at (now : Int) (t : Ticket) :
    (ticketSave now t).closed_at =
      if t.status = "closed" ∧ t.closed_at = none
      then some now else t.closed_at := rfl

theorem ticketSave_resolved_some {t : Ticket} {v : Int} (now : Int)
    (h : t.resolved_at = some v) : (ticketSave now t).resolved_at = some v := by
  rw [ticketSave_resolved_at, if_neg (by simp [h]), h]

theorem ticketSave_closed_some {t : Ticket} {w : Int} (now : Int)
    (h : t.closed_at = some w) : (ticketSave now t).closed_at = some w := by
  rw [ticketSave_closed_at, if_neg (by simp [h]), h]

theorem commentSaveFull_ticket (newPk : Nat) (now : Int) (c : TicketComment)
    (t : Ticket) (db : DB) :
    (commentSaveFull newPk now c t db).2.1 =
      if c.pk = none ∧ t.first_response_at = none ∧ c.author_is_staff then
        ticketSave now { t with first_response_at := some now }
      else t := by
  by_cases h : c.pk = none ∧ t.first_response_at = none ∧ c.author_is_staff
  · simp [commentSaveFull, h, h.1]
  · simp only [commentSaveFull, if_neg h]

theorem applyOp_resolved_some {t : Ticket} {v : Int} (op : TicketOp)
    (h : t.resolved_at = some v) : (applyOp op t).resolved_at = some v := by
  cases op with
  | formSave s now =>
      exact ticketSave_resolved_some now (t := { t with status := s }) h
  | staffComment staff newPk now =>
      rw [applyOp, commentSaveFull_ticket]
      split
      · exact ticketSave_resolved_some now (t := { t with first_response_at := some now }) h
      · exact h
  | bulkStatus s => exact h
  | bulkClose now => exact h

theorem applyOp_closed_ne_none {t : Ticket} (op : TicketOp)
    (h : t.closed_at ≠ none) : (applyOp op t).closed_at ≠ none := by
  obtain ⟨w, hw⟩ := Option.ne_none_iff_exists'.mp h
  cases op with
  | formSave s now =>
      rw [applyOp, ticketSave_closed_some now (t := { t with status := s }) hw]
      simp
  | staffComment staff newPk now =>
      rw [applyOp, commentSaveFull_ticket]
      split
      · rw [ticketSave_closed_some now (t := { t with first_response_at := some now }) hw]
        simp
      · exact h
  | bulkStatus s => exact h
  | bulkClose now => simp [applyOp]

theorem applyOp_closed_some_of_no_bulk_close {t : Ticket} {w : Int}
    (op : TicketOp) (h : t.closed_at = some w)
    (hop : ∀ n, op ≠ .bulkClose n) : (applyOp op t).closed_at = some w := by
  cases op with
  | formSave s now =>
      exact ticketSave_closed_some now (t := { t with status := s }) h
  | staffComment staff newPk now =>
      rw [applyOp, commentSaveFull_ticket]
      split
      · exact ticketSave_closed_some now (t := { t with first_response_at := some now }) h
      · exact h
  | bulkStatus s => exact h
  | bulkClose now => exact absurd rfl (hop now)

theorem complianceStep_eq (sla : SLA) (acc : Nat) (t : Ticket) :
    complianceStep sla acc t = if compliantPred sla t then acc + 1 else acc := by
  rcases hres : t.resolved_at with _ | r <;>
    simp [complianceStep, compliantPred, hres]

theorem compliantFold_go (sla : SLA) (ts : List Ticket) : ∀ acc : Nat,
    ts.foldl (complianceStep sla) acc = acc + ts.countP (compliantPred sla) := by
  induction ts with
  | nil => intro acc; simp
  | cons t ts ih =>
      intro acc
      rw [List.foldl_cons, ih, complianceStep_eq, List.countP_cons]
      by_cases h : compliantPred sla t <;> (simp [h]; try omega)

theorem compliantFold_eq_countP (sla : SLA) (ts : List Ticket) :
    compliantFold sla ts = ts.countP (compliantPred sla) := by
  rw [compliantFold, compliantFold_go, Nat.zero_add]

/-- A representative fresh ticket (no SLA, nothing resolved). -/
def baseTicket : Ticket :=
  { ticket_id := seedId, title := "Generator overheating", status := "open",
    priority := "p3", assigned_to := none, sla := none,
    created_at := 0, updated_at := 0, first_response_at := none,
    resolved_at := none, closed_at := none }

/-- A ticket carrying a policy whose resolution commitment (1 h) is
shorter than its response commitment (2 h), created at time `0`, with no
first response yet. -/
def invertedSlaTicket : Ticket :=
  { baseTicket with sla := some ⟨2, 1⟩ }

/-- The policy of the spec's compliance example (§8): resolution
commitment 4 h. -/
def goldSLA : SLA := { response_time_hours := 1, resolution_time_hours := 4 }

/-- Spec §8 compliance example, ticket A: resolved after 1 h (within the
4 h commitment). -/
def ticketA : Ticket :=
  { baseTicket with
    status := "resolved", sla := some goldSLA, resolved_at := some 3600 }

/-- Spec §8 compliance example, ticket B: resolved after 20000 s
(outside the 4 h commitment). -/
def ticketB : Ticket :=
  { baseTicket with
    status := "resolved", sla := some goldSLA, resolved_at := some 20000 }

/-- Spec §8 compliance example, ticket C: unresolved. -/
def ticketC : Ticket :=
  { baseTicket with sla := some goldSLA }

/-- C1 (counterexample): `is_overdue` does not equal the spec's
reference definition. On a ticket with no first response, status
`"open"`, created at `0`, and a policy with response time 2 h and
resolution time 1 h, at `now = 5000 s` the response window is still open
(5000 ≤ 7200) so the reference definition returns `false`, but the
source falls through to the resolution check (5000 > 3600) and returns
`true`. -/
theorem C1_is_overdue_deviates_from_spec :
    is_overdue 5000 invertedSlaTicket = true ∧
    isOverdueSpec 5000 invertedSlaTicket = false ∧
    is_overdue 5000 invertedSlaTicket ≠ isOverdueSpec 5000 invertedSlaTicket := by
  decide

/-- C1 (amended): `is_overdue` equals the reference definition amended
in the unset-`first_response_at` case only: there it returns true
exactly when `now > created_at + policy.response_time` **or**
`now > created_at + policy.resolution_time` (the source's un-taken
response branch falls through to the resolution check); the no-policy,
terminal-status and `first_response_at`-set cases are exactly as the
spec states them, and in particular, when `first_response_at` is unset
and `now` is within both windows, it returns false. -/
theorem C1_is_overdue_eq_amended_spec (now : Int) (t : Ticket) :
    is_overdue now t = isOverdueSpecAmended now t := by
  rw [is_overdue, isOverdueSpecAmended]
  cases t.sla with
  | none => rfl
  | some sla =>
      by_cases h1 : t.status = "resolved" ∨ t.status = "closed" ∨
          t.status = "cancelled"
      · simp [h1]
      · by_cases h2 : t.first_response_at = none
        · by_cases h3 : now > t.created_at + sla.response_time_hours * 3600 <;>
            simp [h1, h2, h3]
        · simp [h1, h2]

/-- C3: `Ticket.save` sets `resolved_at` to now exactly when the status
is `'resolved'` and `resolved_at` is unset, sets `closed_at` to now
exactly when the status is `'closed'` and `closed_at` is unset, and for
every other status value changes nothing at all (in particular no
timestamp field). -/
theorem C3_ticket_save_timestamps (now : Int) (t : Ticket) :
    ((ticketSave now t).resolved_at =
      if t.status = "resolved" ∧ t.resolved_at = none
      then some now else t.resolved_at) ∧
    ((ticketSave now t).closed_at =
      if t.status = "closed" ∧ t.closed_at = none
      then some now else t.closed_at) ∧
    (t.status ≠ "resolved" → t.status ≠ "closed" → ticketSave now t = t) := by
  refine ⟨ticketSave_resolved_at now t, ticketSave_closed_at now t, ?_⟩
  intro hr hc
  simp [ticketSave, hr, hc]

/-- C3 witness: a pending-status ticket is returned unchanged, and the
two timestamp equations hold on it. -/
theorem C3_ticket_save_timestamps_witness :
    ticketSave 7 { baseTicket with status := "pending" }
      = { baseTicket with status := "pending" } :=
  (C3_ticket_save_timestamps 7 { baseTicket with status := "pending" }).2.2
    (by decide) (by decide)

/-- C9: `Ticket.save` is idempotent on the lifecycle timestamps: a
second call (at any later reference time, the status unchanged — `save`
itself never changes the status) leaves `resolved_at` and `closed_at`
exactly as the first call left them. -/
theorem C9_ticket_save_idempotent (now1 now2 : Int) (t : Ticket) :
    (ticketSave now2 (ticketSave now1 t)).resolved_at
      = (ticketSave now1 t).resolved_at ∧
    (ticketSave now2 (ticketSave now1 t)).closed_at
      = (ticketSave now1 t).closed_at := by
  constructor
  · rw [ticketSave_resolved_at now2]
    split
    · rename_i h
      rw [ticketSave_resolved_at now1] at h
      rcases h with ⟨hst, hres⟩
      split at hres
      · exact absurd hres (by simp)
      · rename_i hcond
        simp only [ticketSave] at hst
        exact absurd ⟨hst, hres⟩ hcond
    · rfl
  · rw [ticketSave_closed_at now2]
    split
    · rename_i h
      rw [ticketSave_closed_at now1] at h
      rcases h with ⟨hst, hcl⟩
      split at hcl
      · exact absurd hcl (by simp)
      · rename_i hcond
        simp only [ticketSave] at hst
        exact absurd ⟨hst, hcl⟩ hcond
    · rfl

/-- C4: saving a new comment (`pk` unset, i.e. the event the spec's
`OnStaffCommentObserved` describes) sets the ticket's
`first_response_at` to the comment's creation time exactly when the
author is staff and `first_response_at` is unset — the ticket's status
is not consulted (the statement quantifies over every ticket, hence over
every status) — and in every other case leaves `first_response_at`
unchanged. -/
theorem C4_comment_save_first_response (newPk : Nat) (now : Int)
    (c : TicketComment) (t : Ticket) (db : DB) (hnew : c.pk = none) :
    (commentSaveFull newPk now c t db).2.1.first_response_at =
      if c.author_is_staff ∧ t.first_response_at = none
      then some now else t.first_response_at := by
  rw [commentSaveFull_ticket]
  by_cases hs : c.author_is_staff
  · by_cases hf : t.first_response_at = none
    · rw [if_pos ⟨hnew, hf, hs⟩, if_pos ⟨hs, hf⟩]
      simp [ticketSave]
    · rw [if_neg (by simp [hf]), if_neg (by simp [hf])]
  · rw [if_neg (by simp [hs]), if_neg (by simp [hs])]

/-- C4 witness: a new staff comment at time 11 on `baseTicket` (status
`"open"`, no first response) stamps `first_response_at = 11`. -/
theorem C4_comment_save_first_response_witness :
    (commentSaveFull 1 11 (newComment true) baseTicket ⟨[], []⟩).2.1.first_response_at
      = some 11 :=
  (C4_comment_save_first_response 1 11 (newComment true) baseTicket
    ⟨[], []⟩ rfl).trans (by decide)

/-- C10: `Ticket.save` never reaches the base persistence routine (the
override has no `super().save()` call): the store is returned unchanged,
every field other than `resolved_at` and `closed_at` — `updated_at`
included, since `auto_now` only fires on an actual store write — keeps
its value, and consequently the `first_response_at` write-back that
`TicketComment.save` requests through
`ticket.save(update_fields=['first_response_at'])` is never persisted:
the ticket rows of the store are unchanged by a comment save. -/
theorem C10_ticket_save_frame (now : Int) (t : Ticket) (db : DB) :
    (ticketSaveFull now t db).2 = db ∧
    (ticketSaveFull now t db).1.ticket_id = t.ticket_id ∧
    (ticketSaveFull now t db).1.title = t.title ∧
    (ticketSaveFull now t db).1.status = t.status ∧
    (ticketSaveFull now t db).1.priority = t.priority ∧
    (ticketSaveFull now t db).1.assigned_to = t.assigned_to ∧
    (ticketSaveFull now t db).1.sla = t.sla ∧
    (ticketSaveFull now t db).1.created_at = t.created_at ∧
    (ticketSaveFull now t db).1.updated_at = t.updated_at ∧
    (ticketSaveFull now t db).1.first_response_at = t.first_response_at ∧
    (∀ newPk c, (commentSaveFull newPk now c t db).2.2.tickets = db.tickets) := by
  refine ⟨rfl, rfl, rfl, rfl, rfl, rfl, rfl, rfl, rfl, rfl, ?_⟩
  intro newPk c
  rw [commentSaveFull]
  split <;> rfl

/-- C2: in every store state reachable by ticket creation, the
identifier the allocator returns is distinct from every already
allocated identifier, and its numeric suffix is strictly greater than
the numeric suffix of every previously allocated identifier (no reuse,
gaps allowed; here allocation is sequential, the serialization the spec
delegates to the backing store). -/
theorem C2_allocator_fresh_monotone (s : List PyStr) (hs : ReachableStore s) :
    get_next_ticket_id s ∉ s ∧
    ∀ tid ∈ s, ∃ a b, numericSuffix tid = some a ∧
      numericSuffix (get_next_ticket_id s) = some b ∧ a < b := by
  obtain ⟨n, rfl⟩ := reachable_eq_seqStore hs
  rw [get_next_seqStore]
  constructor
  · intro hmem
    obtain ⟨i, hi, heq⟩ := List.mem_map.mp hmem
    have hin := List.mem_range.mp hi
    have := mkId_inj heq
    omega
  · intro tid htid
    obtain ⟨i, hi, rfl⟩ := List.mem_map.mp htid
    have hin := List.mem_range.mp hi
    exact ⟨i + 1, n + 1, numericSuffix_mkId _, numericSuffix_mkId _, by omega⟩

/-- C2 witness: the claim instantiated at the reachable one-ticket store
(the store after the first creation). -/
theorem C2_allocator_fresh_monotone_witness :
    get_next_ticket_id ([] ++ [get_next_ticket_id []])
        ∉ ([] ++ [get_next_ticket_id []]) ∧
    ∀ tid ∈ ([] ++ [get_next_ticket_id []]), ∃ a b,
      numericSuffix tid = some a ∧
      numericSuffix (get_next_ticket_id ([] ++ [get_next_ticket_id []]))
        = some b ∧ a < b :=
  C2_allocator_fresh_monotone ([] ++ [get_next_ticket_id []])
    (ReachableStore.step [] ReachableStore.nil)

/-- C7: whenever the last allocated identifier matches the expected
format — at least four dash-separated segments with a final segment that
parses as a number `k` — the allocator returns the fixed prefix
`'RX-UG-INC-'` followed by `k + 1` zero-padded to at least six digits. -/
theorem C7_allocate_next_increments (s : List PyStr) (tid : PyStr) (k : Nat)
    (hlast : s.getLast? = some tid)
    (h4 : 4 ≤ (splitOnChar '-' tid).length)
    (hk : pyInt? ((splitOnChar '-' tid).getLastD []) = some k) :
    get_next_ticket_id s = ticketPrefix ++ pad6 (k + 1) := by
  rw [get_next_ticket_id, hlast]
  simp only [if_pos h4, hk]

/-- C7 witness: `AllocateNext` after `'RX-UG-INC-000047'` is
`'RX-UG-INC-000048'`. -/
theorem C7_allocate_next_increments_witness :
    get_next_ticket_id [("RX-UG-INC-000047").data] = ("RX-UG-INC-000048").data :=
  (C7_allocate_next_increments [("RX-UG-INC-000047").data]
    ("RX-UG-INC-000047").data 47 rfl (by decide) (by decide)).trans (by decide)

/-- C8: the allocator is a total function (the embedding gives its value
on every store, the `ValueError` of a non-numeric suffix included, so it
raises on no input), and it returns the seed identifier
`'RX-UG-INC-000001'` both when no prior identifier exists and when the
existing identifier is malformed — fewer than four dash-separated
segments, or a final segment `int()` rejects (`pyInt?` models `int()`
faithfully here: suffixes such as `'4_7'`, `'+47'`, whitespace-padded or
non-ASCII digit runs parse successfully and take the increment path, not
this fallback). -/
theorem C8_allocate_next_fallback (s : List PyStr) :
    (s.getLast? = none → get_next_ticket_id s = seedId) ∧
    (∀ tid, s.getLast? = some tid →
      ((splitOnChar '-' tid).length < 4 ∨
        pyInt? ((splitOnChar '-' tid).getLastD []) = none) →
      get_next_ticket_id s = seedId) := by
  constructor
  · intro h
    rw [get_next_ticket_id, h]
  · intro tid h hbad
    rw [get_next_ticket_id, h]
    rcases hbad with hlen | hnone
    · simp only [if_neg (by omega : ¬ 4 ≤ (splitOnChar '-' tid).length)]
    · by_cases h4 : 4 ≤ (splitOnChar '-' tid).length
      · simp only [if_pos h4, hnone]
      · simp only [if_neg h4]

/-- C8 witness: `AllocateNext` after the malformed identifier
`'garbage'` (a single segment) falls back to the seed. -/
theorem C8_allocate_next_fallback_witness :
    get_next_ticket_id [("garbage").data] = seedId :=
  (C8_allocate_next_fallback [("garbage").data]).2 ("garbage").data rfl
    (Or.inl (by decide))

/-- C5: over a nonempty sequence of tickets under a policy, the SLA
performance entry counts a ticket as compliant exactly when
`resolved_at` is set and `resolved_at - created_at` is at most the
policy's resolution time (so unresolved tickets are in the total but
never in the compliant count), reports
`rate = compliant / total * 100` rounded to one decimal, and over an
empty sequence reports no entry — and hence no rate — at all. -/
theorem C5_compliance_rate (sla : SLA) (ts : List Ticket) (hne : ts ≠ []) :
    slaPerformance sla ts =
      some (ts.length, ts.countP (compliantPred sla),
        round1 ((ts.countP (compliantPred sla) : ℚ) / (ts.length : ℚ) * 100)) ∧
    slaPerformance sla [] = none := by
  constructor
  · rw [slaPerformance,
      if_pos (List.length_pos.mpr hne), compliantFold_eq_countP]
  · rfl

/-- C5 witness: the spec's example — ticket A resolved within the 4 h
commitment, ticket B resolved outside it, ticket C unresolved — yields
total 3, compliant 1 and rate 33.3. -/
theorem C5_compliance_rate_witness :
    slaPerformance goldSLA [ticketA, ticketB, ticketC]
      = some (3, 1, 333 / 10) := by
  have h := (C5_compliance_rate goldSLA [ticketA, ticketB, ticketC]
    (by simp)).1
  have hcount : List.countP (compliantPred goldSLA) [ticketA, ticketB, ticketC]
      = 1 := by decide
  rw [h, hcount]
  have hfloor : ⌊(100:ℚ) / 3 * 10⌋ = 333 := by
    rw [Int.floor_eq_iff]
    norm_num
  have hround : round1 ((100:ℚ) / 3) = 333 / 10 := by
    simp only [round1, roundHalfEven, hfloor]
    split_ifs with h1 h2 h3 <;> norm_num at h1 ⊢
  simp only [List.length_cons, List.length_nil, Nat.cast_one]
  norm_num [hround]

/-- Does the operation come from the `bulk_action` close branch? -/
def isBulkClose : TicketOp → Bool
  | .bulkClose _ => true
  | _ => false

/-- C6 (counterexample): the claimed at-most-once discipline fails.
Closing `baseTicket` through `Ticket.save` at time 10 sets
`closed_at = 10`, but a subsequent bulk close at time 20 overwrites it
to 20; and a bulk status change to `'resolved'` makes the status
`'resolved'` without ever assigning `resolved_at` (the queryset
`update` bypasses `Ticket.save`), so `resolved_at` is not assigned the
first time the status becomes resolved. -/
theorem C6_bulk_timestamp_violations :
    (applyOps [TicketOp.formSave "closed" 10] baseTicket).closed_at
      = some 10 ∧
    (applyOps [TicketOp.formSave "closed" 10, TicketOp.bulkClose 20]
      baseTicket).closed_at = some 20 ∧
    (applyOps [TicketOp.bulkStatus "resolved"] baseTicket).status
      = "resolved" ∧
    (applyOps [TicketOp.bulkStatus "resolved"] baseTicket).resolved_at
      = none := by
  decide

/-- C6 (amended): across every sequence of the four ticket-mutating
operations, `resolved_at`, once set, is never cleared or overwritten
(the save paths assign it only when unset and the bulk paths never touch
it); `closed_at`, once set, is never cleared, and is never overwritten
by single-ticket save or staff-comment save — but bulk close
unconditionally sets `closed_at` to the current time, overwriting an
already-set value, and a bulk status change to `'resolved'` does not
assign `resolved_at` at all, since queryset `update` bypasses
`Ticket.save`. -/
theorem C6_timestamps_amended (ops : List TicketOp) (t : Ticket)
    (v w : Int) :
    (t.resolved_at = some v → (applyOps ops t).resolved_at = some v) ∧
    (t.closed_at ≠ none → (applyOps ops t).closed_at ≠ none) ∧
    (t.closed_at = some w → (∀ op ∈ ops, isBulkClose op = false) →
      (applyOps ops t).closed_at = some w) := by
  induction ops generalizing t with
  | nil => exact ⟨fun h => h, fun h => h, fun h _ => h⟩
  | cons op ops ih =>
      refine ⟨?_, ?_, ?_⟩
      · intro h
        exact (ih (applyOp op t)).1 (applyOp_resolved_some op h)
      · intro h
        exact (ih (applyOp op t)).2.1 (applyOp_closed_ne_none op h)
      · intro h hops
        have hop : ∀ n, op ≠ TicketOp.bulkClose n := by
          intro n hn
          have := hops op (List.mem_cons_self op ops)
          rw [hn] at this
          exact absurd this (by simp [isBulkClose])
        exact (ih (applyOp op t)).2.2
          (applyOp_closed_some_of_no_bulk_close op h hop)
          (fun o ho => hops o (List.mem_cons_of_mem op ho))

/-- C6 witness: on a ticket with both timestamps already set, a
save-to-resolved followed by a bulk status change preserves
`resolved_at = 3` and `closed_at = 4`. -/
theorem C6_timestamps_amended_witness :
    (applyOps [TicketOp.formSave "resolved" 5, TicketOp.bulkStatus "pending"]
      { baseTicket with resolved_at := some 3, closed_at := some 4 }).resolved_at
      = some 3 ∧
    (applyOps [TicketOp.formSave "resolved" 5, TicketOp.bulkStatus "pending"]
      { baseTicket with resolved_at := some 3, closed_at := some 4 }).closed_at
      ≠ none ∧
    (applyOps [TicketOp.formSave "resolved" 5, TicketOp.bulkStatus "pending"]
      { baseTicket with resolved_at := some 3, closed_at := some 4 }).closed_at
      = some 4 := by
  have h := C6_timestamps_amended
    [TicketOp.formSave "resolved" 5, TicketOp.bulkStatus "pending"]
    { baseTicket with resolved_at := some 3, closed_at := some 4 } 3 4
  exact ⟨h.1 rfl, h.2.1 (by decide), h.2.2 rfl (by decide)⟩

end Taas
